import Mathlib

/-!
Verification of the grid/carrier/policy simulation engine ("advent of code,
day 22").  The Rust source (src/main.rs) is embedded shallowly:

* `Position`, `CellState`, `Direction` are direct transliterations of the
  corresponding Rust types.
* `Grid` wraps an association list standing in for the Rust
  `HashMap<Position, CellState>`; `lookupCell` / `insertCell` / `removeCell`
  give the map semantics of `get` / `insert` / `remove` (insert replaces any
  previous binding for the key).
* Mutating methods become state-passing functions returning the new value.
* The `panic!` in `CurrierRule::apply` is modelled by `Except`: the `error`
  payload is the machine state (grid, carrier) at the abort point.
* `ComputingCluster.next` mirrors the `Iterator` implementation: it returns
  `some` element together with the advanced cluster (wrapped in `Except`
  because the policy may panic); `ComputingCluster.run` drives it `n` times
  (the `take n` prefix), and `infections` counts the elements whose resulting
  state is `Infected`.
-/

namespace Day22

abbrev Position := Int × Int

inductive CellState where
  | Clean
  | Weakened
  | Infected
  | Flagged
  deriving DecidableEq, Repr

/-- The association list standing in for the Rust `HashMap`: first binding of
a key wins. -/
def lookupCell : List (Position × CellState) → Position → Option CellState
  | [], _ => none
  | e :: rest, pos => if e.1 = pos then some e.2 else lookupCell rest pos

/-- Remove every binding of `pos` (the map's `remove`). -/
def removeCell : List (Position × CellState) → Position → List (Position × CellState)
  | [], _ => []
  | e :: rest, pos =>
    if e.1 = pos then removeCell rest pos else e :: removeCell rest pos

/-- Insert a binding for `pos`, replacing any previous one (the map's
`insert`). -/
def insertCell (cells : List (Position × CellState)) (pos : Position)
    (s : CellState) : List (Position × CellState) :=
  (pos, s) :: removeCell cells pos

structure Grid where
  cells : List (Position × CellState)
  deriving DecidableEq, Repr

/-- `Grid::from`: every `'#'` character of the block becomes an `Infected`
cell at `(row - h/2, col - w/2)`; `h` is the number of lines and `w` the
length of the first line. -/
def Grid.fromLines (lines : List (List Char)) : Grid :=
  let h : Nat := lines.length
  let w : Nat := (lines.headD []).length
  ⟨lines.enum.flatMap (fun rl =>
    rl.2.enum.filterMap (fun cc =>
      if cc.2 = '#' then
        some (((rl.1 : Int) - ((h / 2 : Nat) : Int),
               (cc.1 : Int) - ((w / 2 : Nat) : Int)), CellState.Infected)
      else none))⟩

/-- `Grid::state`: the stored state, `Clean` when the key is absent. -/
def Grid.state (g : Grid) (pos : Position) : CellState :=
  (lookupCell g.cells pos).getD CellState.Clean

/-- `Grid::clean`: remove the binding. -/
def Grid.clean (g : Grid) (pos : Position) : Grid :=
  ⟨removeCell g.cells pos⟩

/-- `Grid::weak`. -/
def Grid.weak (g : Grid) (pos : Position) : Grid :=
  ⟨insertCell g.cells pos CellState.Weakened⟩

/-- `Grid::infect`. -/
def Grid.infect (g : Grid) (pos : Position) : Grid :=
  ⟨insertCell g.cells pos CellState.Infected⟩

/-- `Grid::flag`. -/
def Grid.flag (g : Grid) (pos : Position) : Grid :=
  ⟨insertCell g.cells pos CellState.Flagged⟩

/-- `Grid::reverse`: toggle between `Clean` and `Infected`, returning the
pre-toggle state (and, here, the updated grid); any other state is returned
unchanged with the grid untouched. -/
def Grid.reverse (g : Grid) (pos : Position) : CellState × Grid :=
  match g.state pos with
  | CellState.Clean => (CellState.Clean, g.infect pos)
  | CellState.Infected => (CellState.Infected, g.clean pos)
  | s => (s, g)

inductive Direction where
  | Up
  | Right
  | Left
  | Down
  deriving DecidableEq, Repr

structure Currier where
  position : Position
  direction : Direction
  deriving DecidableEq, Repr

/-- `Currier::default()`: start at the origin facing `Up`. -/
def Currier.default : Currier :=
  ⟨(0, 0), Direction.Up⟩

/-- `Currier::step`: move one unit in the facing direction; the Rust method
returns the new position, so the result pairs it with the new carrier. -/
def Currier.step (c : Currier) : Position × Currier :=
  let c' : Currier :=
    match c.direction with
    | Direction.Up => { c with position := (c.position.1 - 1, c.position.2) }
    | Direction.Right => { c with position := (c.position.1, c.position.2 + 1) }
    | Direction.Left => { c with position := (c.position.1, c.position.2 - 1) }
    | Direction.Down => { c with position := (c.position.1 + 1, c.position.2) }
  (c'.position, c')

/-- `Currier::right`: 90 degrees clockwise. -/
def Currier.right (c : Currier) : Currier :=
  { c with direction :=
      match c.direction with
      | Direction.Up => Direction.Right
      | Direction.Right => Direction.Down
      | Direction.Left => Direction.Up
      | Direction.Down => Direction.Left }

/-- `Currier::left`: 90 degrees counter-clockwise. -/
def Currier.left (c : Currier) : Currier :=
  { c with direction :=
      match c.direction with
      | Direction.Up => Direction.Left
      | Direction.Right => Direction.Up
      | Direction.Left => Direction.Down
      | Direction.Down => Direction.Right }

/-- A policy application: either the updated `(grid, carrier)` pair, or an
abort (`panic!`) carrying the machine state at the abort point. -/
abbrev PolicyFun := Grid → Currier → Except (Grid × Currier) (Grid × Currier)

/-- `CurrierRule::apply` (the Basic policy): toggle the current cell via
`reverse`, turn by the pre-toggle state (left on `Clean`, right on
`Infected`, panic otherwise), then step. -/
def CurrierRule.apply : PolicyFun := fun grid currier =>
  match grid.reverse currier.position with
  | (CellState.Clean, g) => Except.ok (g, (currier.left.step).2)
  | (CellState.Infected, g) => Except.ok (g, (currier.right.step).2)
  | (_, g) => Except.error (g, currier)

/-- `EvolvedRule::apply` (the Evolved policy): read the current state, then
turn/rewrite per the four-state table, then step. -/
def EvolvedRule.apply : PolicyFun := fun grid currier =>
  let old := grid.state currier.position
  let position := currier.position
  match old with
  | CellState.Clean => Except.ok (grid.weak position, (currier.left.step).2)
  | CellState.Infected => Except.ok (grid.flag position, (currier.right.step).2)
  | CellState.Weakened => Except.ok (grid.infect position, (currier.step).2)
  | CellState.Flagged =>
      Except.ok (grid.clean position, ((currier.right.right).step).2)

structure ComputingCluster where
  grid : Grid
  currier : Currier
  policy : PolicyFun

/-- `ComputingCluster::next` (the `Iterator` impl): record the carrier's
position, apply the policy, then pair the recorded position with the grid's
state there after the mutation.  The Rust `next` always returns `Some`; the
`Option` layer records that, while `Except.error` models a policy panic. -/
def ComputingCluster.next (cl : ComputingCluster) :
    Except (Grid × Currier) (Option ((Position × CellState) × ComputingCluster)) :=
  let position := cl.currier.position
  match cl.policy cl.grid cl.currier with
  | Except.error st => Except.error st
  | Except.ok (g, c) =>
      Except.ok (some ((position, g.state position),
        { cl with grid := g, currier := c }))

/-- Drive the cluster `n` times (the `take n` prefix of the iterator),
collecting the produced elements and the final cluster. -/
def ComputingCluster.run :
    Nat → ComputingCluster →
      Except (Grid × Currier) (List (Position × CellState) × ComputingCluster)
  | 0, cl => Except.ok ([], cl)
  | n + 1, cl =>
    match cl.next with
    | Except.error st => Except.error st
    | Except.ok none => Except.ok ([], cl)
    | Except.ok (some (item, cl')) =>
      match ComputingCluster.run n cl' with
      | Except.error st => Except.error st
      | Except.ok (items, cl'') => Except.ok (item :: items, cl'')

/-- `infections`: count, among the first `steps` elements, those whose
resulting state is `Infected`. -/
def infections (cl : ComputingCluster) (steps : Nat) :
    Except (Grid × Currier) Nat :=
  (ComputingCluster.run steps cl).map
    (fun out => (out.1.filter (fun e => decide (e.2 = CellState.Infected))).length)

/-- The 3x3 example block `..#` / `#..` / `...`. -/
def exampleLines : List (List Char) :=
  [['.', '.', '#'], ['#', '.', '.'], ['.', '.', '.']]

/-! Spec-side descriptions, written from the specification's words, to be
compared with the functions embedded from the source. -/

/-- The spec's turn cycle `Up → Right → Down → Left → Up` (clockwise). -/
def cycleNext : Direction → Direction
  | Direction.Up => Direction.Right
  | Direction.Right => Direction.Down
  | Direction.Down => Direction.Left
  | Direction.Left => Direction.Up

/-- The reverse of the spec's turn cycle (counter-clockwise). -/
def cyclePrev : Direction → Direction
  | Direction.Up => Direction.Left
  | Direction.Left => Direction.Down
  | Direction.Down => Direction.Right
  | Direction.Right => Direction.Up

/-- The spec's movement rule: `Up` decreases the row, `Down` increases it,
`Right` increases the column, `Left` decreases it. -/
def moveOne : Direction → Position → Position
  | Direction.Up, p => (p.1 - 1, p.2)
  | Direction.Down, p => (p.1 + 1, p.2)
  | Direction.Right, p => (p.1, p.2 + 1)
  | Direction.Left, p => (p.1, p.2 - 1)

/-- Post-state column of the spec's Evolved transition table. -/
def evolvedPost : CellState → CellState
  | CellState.Clean => CellState.Weakened
  | CellState.Weakened => CellState.Infected
  | CellState.Infected => CellState.Flagged
  | CellState.Flagged => CellState.Clean

/-- Turn column of the spec's Evolved transition table, acting on the
carrier: left on `Clean`, none on `Weakened`, right on `Infected`,
180 degrees on `Flagged`. -/
def evolvedTurn : CellState → Currier → Currier
  | CellState.Clean, c => c.left
  | CellState.Weakened, c => c
  | CellState.Infected, c => c.right
  | CellState.Flagged, c => c.right.right

/-! Lemmas about the association-list map. -/

theorem lookupCell_removeCell (cells : List (Position × CellState))
    (pos q : Position) :
    lookupCell (removeCell cells pos) q =
      if q = pos then none else lookupCell cells q := by
  induction cells with
  | nil => simp [removeCell, lookupCell]
  | cons e rest ih =>
    rw [removeCell]
    by_cases h1 : e.1 = pos
    · rw [if_pos h1, ih, lookupCell]
      by_cases h2 : q = pos
      · simp [h2]
      · have hne : ¬e.1 = q := by rw [h1]; exact fun h => h2 h.symm
        simp [h2, hne]
    · rw [if_neg h1, lookupCell, lookupCell, ih]
      by_cases h2 : q = pos
      · have hne : ¬e.1 = q := by rw [h2]; exact fun h => h1 h
        simp [h2, hne, h1]
      · by_cases h3 : e.1 = q <;> simp [h2, h3]

theorem lookupCell_insertCell (cells : List (Position × CellState))
    (pos q : Position) (s : CellState) :
    lookupCell (insertCell cells pos s) q =
      if q = pos then some s else lookupCell cells q := by
  rw [insertCell, lookupCell, lookupCell_removeCell]
  by_cases h : q = pos
  · rw [if_pos h.symm, if_pos h]
  · rw [if_neg (fun hp => h hp.symm), if_neg h, if_neg h]

theorem lookupCell_mem (cells : List (Position × CellState)) (q : Position)
    (s : CellState) (h : lookupCell cells q = some s) : (q, s) ∈ cells := by
  induction cells with
  | nil => simp [lookupCell] at h
  | cons e rest ih =>
    rw [lookupCell] at h
    by_cases h1 : e.1 = q
    · rw [if_pos h1] at h
      have hs : s = e.2 := (Option.some_inj.mp h).symm
      have he : (q, s) = e := by rw [← h1, hs]
      rw [he]
      exact List.mem_cons_self _ _
    · exact List.mem_cons_of_mem _ (ih (by rwa [if_neg h1] at h))

theorem lookupCell_isSome (cells : List (Position × CellState)) (q : Position)
    (h : ∃ s, (q, s) ∈ cells) : ∃ s, lookupCell cells q = some s := by
  obtain ⟨s, hs⟩ := h
  induction cells with
  | nil => simp at hs
  | cons e rest ih =>
    rw [lookupCell]
    by_cases h1 : e.1 = q
    · exact ⟨e.2, if_pos h1⟩
    · rcases List.mem_cons.mp hs with h2 | h2
      · exact absurd (congrArg Prod.fst h2.symm) h1
      · obtain ⟨t, ht⟩ := ih h2
        exact ⟨t, by rwa [if_neg h1]⟩

theorem Grid.state_weak (g : Grid) (pos q : Position) :
    (g.weak pos).state q =
      if q = pos then CellState.Weakened else g.state q := by
  rw [Grid.weak, Grid.state, Grid.state, lookupCell_insertCell]
  by_cases h : q = pos <;> simp [h]

theorem Grid.state_infect (g : Grid) (pos q : Position) :
    (g.infect pos).state q =
      if q = pos then CellState.Infected else g.state q := by
  rw [Grid.infect, Grid.state, Grid.state, lookupCell_insertCell]
  by_cases h : q = pos <;> simp [h]

theorem Grid.state_flag (g : Grid) (pos q : Position) :
    (g.flag pos).state q =
      if q = pos then CellState.Flagged else g.state q := by
  rw [Grid.flag, Grid.state, Grid.state, lookupCell_insertCell]
  by_cases h : q = pos <;> simp [h]

theorem Grid.state_clean (g : Grid) (pos q : Position) :
    (g.clean pos).state q =
      if q = pos then CellState.Clean else g.state q := by
  rw [Grid.clean, Grid.state, Grid.state, lookupCell_removeCell]
  by_cases h : q = pos <;> simp [h]

theorem Grid.reverse_of_clean (g : Grid) (pos : Position)
    (h : g.state pos = CellState.Clean) :
    g.reverse pos = (CellState.Clean, g.infect pos) := by
  rw [Grid.reverse, h]

theorem Grid.reverse_of_infected (g : Grid) (pos : Position)
    (h : g.state pos = CellState.Infected) :
    g.reverse pos = (CellState.Infected, g.clean pos) := by
  rw [Grid.reverse, h]

theorem Grid.reverse_of_other (g : Grid) (pos : Position)
    (h : g.state pos ≠ CellState.Clean) (h' : g.state pos ≠ CellState.Infected) :
    g.reverse pos = (g.state pos, g) := by
  rw [Grid.reverse]
  rcases hs : g.state pos with _ | _ | _ | _
  · exact absurd hs h
  · rfl
  · exact absurd hs h'
  · rfl

/-- Claim C8: `step` moves exactly one unit in the facing direction (`Up`
decreases the row, `Down` increases it, `Right` increases the column, `Left`
decreases it) and returns the new position; `right` and `left` rotate the
facing 90 degrees through the cycle `Up → Right → Down → Left → Up` (and its
reverse) without moving; and two right turns equal two left turns (the same
net 180-degree reversal). -/
theorem currier_motion_spec (c : Currier) :
    ((c.step).1 = moveOne c.direction c.position ∧
     (c.step).2.position = (c.step).1 ∧
     (c.step).2.direction = c.direction) ∧
    ((c.right).direction = cycleNext c.direction ∧
     (c.right).position = c.position) ∧
    ((c.left).direction = cyclePrev c.direction ∧
     (c.left).position = c.position) ∧
    c.right.right = c.left.left := by
  obtain ⟨p, d⟩ := c
  cases d <;>
    simp [Currier.step, Currier.right, Currier.left, cycleNext, cyclePrev,
      moveOne]

/-- Claim C7: on a cell whose state is in the Basic alphabet, `reverse`
applied twice restores the cell's state everywhere, each call returns the
pre-toggle state, and the two returned values are complementary. -/
theorem reverse_involution (g : Grid) (pos : Position)
    (h : g.state pos = CellState.Clean ∨ g.state pos = CellState.Infected) :
    (g.reverse pos).1 = g.state pos ∧
    ((g.reverse pos).2.reverse pos).1 = (g.reverse pos).2.state pos ∧
    (∀ q, ((g.reverse pos).2.reverse pos).2.state q = g.state q) ∧
    ((g.reverse pos).1 = CellState.Clean ∧
        ((g.reverse pos).2.reverse pos).1 = CellState.Infected ∨
      (g.reverse pos).1 = CellState.Infected ∧
        ((g.reverse pos).2.reverse pos).1 = CellState.Clean) := by
  rcases h with h | h
  · have h2 : (g.infect pos).state pos = CellState.Infected := by
      simp [Grid.state_infect]
    rw [Grid.reverse_of_clean g pos h, Grid.reverse_of_infected _ _ h2]
    refine ⟨h.symm, h2.symm, fun q => ?_, Or.inl ⟨rfl, rfl⟩⟩
    rw [Grid.state_clean, Grid.state_infect]
    by_cases hq : q = pos
    · simp [hq, h.symm]
    · simp [hq]
  · have h2 : (g.clean pos).state pos = CellState.Clean := by
      simp [Grid.state_clean]
    rw [Grid.reverse_of_infected g pos h, Grid.reverse_of_clean _ _ h2]
    refine ⟨h.symm, h2.symm, fun q => ?_, Or.inr ⟨rfl, rfl⟩⟩
    rw [Grid.state_infect, Grid.state_clean]
    by_cases hq : q = pos
    · simp [hq, h.symm]
    · simp [hq]

/-- Witness for C7 at the example grid's clean origin. -/
theorem reverse_involution_witness :
    (Grid.fromLines exampleLines).state (0, 0) = CellState.Clean ∧
    ((Grid.fromLines exampleLines).reverse (0, 0)).1 =
      (Grid.fromLines exampleLines).state (0, 0) :=
  ⟨rfl, (reverse_involution (Grid.fromLines exampleLines) (0, 0) (Or.inl rfl)).1⟩

/-- Claim C3: on a cell in the Basic alphabet, the Basic policy toggles that
cell via `reverse` (observing the pre-toggle value), turns the carrier left
on a pre-toggle `Clean` and right on a pre-toggle `Infected`, then advances
one step in the new facing; the cell ends toggled and no other cell
changes. -/
theorem basic_apply_spec (g : Grid) (c : Currier)
    (h : g.state c.position = CellState.Clean ∨
      g.state c.position = CellState.Infected) :
    CurrierRule.apply g c =
      Except.ok ((g.reverse c.position).2,
        (((if g.state c.position = CellState.Clean then c.left else c.right).step).2)) ∧
    (g.reverse c.position).1 = g.state c.position ∧
    (∀ q, (g.reverse c.position).2.state q =
      if q = c.position then
        (if g.state c.position = CellState.Clean then CellState.Infected
         else CellState.Clean)
      else g.state q) := by
  rcases h with h | h
  · have hr := Grid.reverse_of_clean g c.position h
    refine ⟨?_, by rw [hr, h], fun q => ?_⟩
    · simp [CurrierRule.apply, hr, h]
    · rw [hr, h, Grid.state_infect]
      by_cases hq : q = c.position <;> simp [hq]
  · have hr := Grid.reverse_of_infected g c.position h
    have hne : g.state c.position ≠ CellState.Clean := by rw [h]; nofun
    refine ⟨?_, by rw [hr, h], fun q => ?_⟩
    · simp [CurrierRule.apply, hr, hne]
    · rw [hr, h, Grid.state_clean]
      by_cases hq : q = c.position <;> simp [hq, hne]

/-- Witness for C3: one Basic step from the example grid's clean origin. -/
theorem basic_apply_spec_witness :
    (Grid.fromLines exampleLines).state (0, 0) = CellState.Clean ∧
    CurrierRule.apply (Grid.fromLines exampleLines) Currier.default =
      Except.ok
        (Grid.mk [((0, 0), CellState.Infected), ((-1, 1), CellState.Infected),
            ((0, -1), CellState.Infected)],
          Currier.mk (0, -1) Direction.Left) := by
  refine ⟨rfl, ?_⟩
  have h := (basic_apply_spec (Grid.fromLines exampleLines) Currier.default
    (Or.inl rfl)).1
  rw [h]
  rfl

/-- Claim C5: applying the Basic policy on a cell holding `Weakened` or
`Flagged` aborts; the error carries the machine state at the abort point,
which is the unchanged grid and carrier. -/
theorem basic_apply_panic (g : Grid) (c : Currier)
    (h : g.state c.position = CellState.Weakened ∨
      g.state c.position = CellState.Flagged) :
    CurrierRule.apply g c = Except.error (g, c) := by
  have h1 : g.state c.position ≠ CellState.Clean := by
    rcases h with h | h <;> rw [h] <;> nofun
  have h2 : g.state c.position ≠ CellState.Infected := by
    rcases h with h | h <;> rw [h] <;> nofun
  have hr := Grid.reverse_of_other g c.position h1 h2
  rcases h with h | h <;> rw [h] at hr <;> simp [CurrierRule.apply, hr]

/-- Witness for C5: the Basic policy panics on a `Weakened` cell, leaving
grid and carrier untouched. -/
theorem basic_apply_panic_witness :
    (Grid.mk [((0, 0), CellState.Weakened)]).state (0, 0) = CellState.Weakened ∧
    CurrierRule.apply (Grid.mk [((0, 0), CellState.Weakened)]) Currier.default =
      Except.error (Grid.mk [((0, 0), CellState.Weakened)], Currier.default) :=
  ⟨rfl, basic_apply_panic _ _ (Or.inl rfl)⟩

/-- Claim C2: one Evolved-policy application reads the current cell's state
from the unmutated grid, turns and rewrites the cell per the table
`Clean → (left, Weakened)`, `Weakened → (none, Infected)`,
`Infected → (right, Flagged)`, `Flagged → (180 degrees, Clean)`, then
advances one step; the transition is total (it succeeds on every one of the
four states) and no other cell changes. -/
theorem evolved_apply_spec (g : Grid) (c : Currier) :
    ∃ g', EvolvedRule.apply g c =
        Except.ok (g', ((evolvedTurn (g.state c.position) c).step).2) ∧
      ∀ q, g'.state q =
        if q = c.position then evolvedPost (g.state c.position)
        else g.state q := by
  rcases hs : g.state c.position with _ | _ | _ | _
  · refine ⟨g.weak c.position, ?_, fun q => ?_⟩
    · simp [EvolvedRule.apply, hs, evolvedTurn]
    · rw [Grid.state_weak]
      by_cases hq : q = c.position <;> simp [hq, evolvedPost]
  · refine ⟨g.infect c.position, ?_, fun q => ?_⟩
    · simp [EvolvedRule.apply, hs, evolvedTurn]
    · rw [Grid.state_infect]
      by_cases hq : q = c.position <;> simp [hq, evolvedPost]
  · refine ⟨g.flag c.position, ?_, fun q => ?_⟩
    · simp [EvolvedRule.apply, hs, evolvedTurn]
    · rw [Grid.state_flag]
      by_cases hq : q = c.position <;> simp [hq, evolvedPost]
  · refine ⟨g.clean c.position, ?_, fun q => ?_⟩
    · simp [EvolvedRule.apply, hs, evolvedTurn]
    · rw [Grid.state_clean]
      by_cases hq : q = c.position <;> simp [hq, evolvedPost]

/-- Claim C4: every element the engine produces pairs the carrier's pre-step
position with that cell's state read after the policy's mutation, one policy
application per element; and `next` never signals the end of the
sequence. -/
theorem cluster_next_spec (cl : ComputingCluster) :
    (∀ g c, cl.policy cl.grid cl.currier = Except.ok (g, c) →
      cl.next = Except.ok (some
        ((cl.currier.position, g.state cl.currier.position),
          ComputingCluster.mk g c cl.policy))) ∧
    (∀ out, cl.next = Except.ok out → out.isSome = true) := by
  constructor
  · intro g c h
    simp [ComputingCluster.next, h]
  · intro out h
    rcases hp : cl.policy cl.grid cl.currier with st | gc
    · have h2 : cl.next = Except.error st := by
        simp [ComputingCluster.next, hp]
      rw [h2] at h
      exact Except.noConfusion h
    · obtain ⟨g, c⟩ := gc
      have h2 : cl.next = Except.ok (some
          ((cl.currier.position, g.state cl.currier.position),
            ComputingCluster.mk g c cl.policy)) := by
        simp [ComputingCluster.next, hp]
      rw [h2] at h
      injection h with h'
      rw [← h']
      rfl

/-- Witness for C4: the first Evolved step on the example grid. -/
theorem cluster_next_spec_witness :
    EvolvedRule.apply (Grid.fromLines exampleLines) Currier.default =
      Except.ok (Grid.mk [((0, 0), CellState.Weakened),
          ((-1, 1), CellState.Infected), ((0, -1), CellState.Infected)],
        Currier.mk (0, -1) Direction.Left) ∧
    (ComputingCluster.mk (Grid.fromLines exampleLines) Currier.default
        EvolvedRule.apply).next =
      Except.ok (some (((0, 0), CellState.Weakened),
        ComputingCluster.mk
          (Grid.mk [((0, 0), CellState.Weakened),
            ((-1, 1), CellState.Infected), ((0, -1), CellState.Infected)])
          (Currier.mk (0, -1) Direction.Left) EvolvedRule.apply)) := by
  refine ⟨rfl, ?_⟩
  have h := (cluster_next_spec (ComputingCluster.mk (Grid.fromLines exampleLines)
      Currier.default EvolvedRule.apply)).1
    (Grid.mk [((0, 0), CellState.Weakened), ((-1, 1), CellState.Infected),
      ((0, -1), CellState.Infected)])
    (Currier.mk (0, -1) Direction.Left) (by rfl)
  rw [h]
  rfl

/-- Claim C9: a zero-step run yields count 0 with the cluster (grid and
carrier) returned exactly as given: the policy is never applied. -/
theorem run_zero_spec (cl : ComputingCluster) :
    ComputingCluster.run 0 cl = Except.ok ([], cl) ∧
    infections cl 0 = Except.ok 0 :=
  ⟨rfl, rfl⟩

/-- Scenario A at 70 steps (the repository's `count_infections` test): the
Basic policy yields 41 infecting steps on the example block. -/
theorem basic_example_70 :
    infections (ComputingCluster.mk (Grid.fromLines exampleLines)
      Currier.default CurrierRule.apply) 70 = Except.ok 41 := by
  rfl

/-- Scenario B at 100 steps (the repository's
`count_infections_evolved_virus` test): the Evolved policy yields 26
infecting steps on the example block. -/
theorem evolved_example_100 :
    infections (ComputingCluster.mk (Grid.fromLines exampleLines)
      Currier.default EvolvedRule.apply) 100 = Except.ok 26 := by
  rfl

theorem fromLines_mem (lines : List (List Char)) (e : Position × CellState) :
    e ∈ (Grid.fromLines lines).cells ↔
      ∃ r c : Nat, (∃ l, lines[r]? = some l ∧ l[c]? = some '#') ∧
        e = (((r : Int) - ((lines.length / 2 : Nat) : Int),
              (c : Int) - (((lines.headD []).length / 2 : Nat) : Int)),
             CellState.Infected) := by
  constructor
  · intro he
    simp only [Grid.fromLines, List.mem_flatMap] at he
    obtain ⟨rl, hrl, he⟩ := he
    simp only [List.mem_filterMap] at he
    obtain ⟨cc, hcc, he⟩ := he
    rw [Option.ite_none_right_eq_some] at he
    obtain ⟨hchar, he⟩ := he
    refine ⟨rl.1, cc.1, ⟨rl.2, List.mem_enum_iff_getElem?.mp hrl, ?_⟩,
      (Option.some_inj.mp he).symm⟩
    rw [← hchar]
    exact List.mem_enum_iff_getElem?.mp hcc
  · rintro ⟨r, c, ⟨l, hl, hc⟩, he⟩
    simp only [Grid.fromLines, List.mem_flatMap, List.mem_filterMap]
    refine ⟨(r, l), List.mem_enum_iff_getElem?.mpr hl,
      (c, '#'), List.mem_enum_iff_getElem?.mpr hc, ?_⟩
    rw [if_pos rfl, he]

theorem fromLines_value (lines : List (List Char)) (e : Position × CellState)
    (he : e ∈ (Grid.fromLines lines).cells) : e.2 = CellState.Infected := by
  obtain ⟨r, c, _, he⟩ := (fromLines_mem lines e).mp he
  rw [he]

theorem fromLines_state_cases (lines : List (List Char)) (pos : Position) :
    (Grid.fromLines lines).state pos = CellState.Clean ∨
    (Grid.fromLines lines).state pos = CellState.Infected := by
  rcases hl : lookupCell (Grid.fromLines lines).cells pos with _ | s
  · rw [Grid.state, hl]
    exact Or.inl rfl
  · right
    have hv := fromLines_value lines (pos, s) (lookupCell_mem _ _ _ hl)
    rw [Grid.state, hl]
    exact hv

theorem fromLines_state_infected_iff (lines : List (List Char)) (pos : Position) :
    (Grid.fromLines lines).state pos = CellState.Infected ↔
      ∃ r c : Nat, (∃ l, lines[r]? = some l ∧ l[c]? = some '#') ∧
        pos = ((r : Int) - ((lines.length / 2 : Nat) : Int),
               (c : Int) - (((lines.headD []).length / 2 : Nat) : Int)) := by
  constructor
  · intro h
    rcases hl : lookupCell (Grid.fromLines lines).cells pos with _ | s
    · rw [Grid.state, hl] at h
      exact absurd h (by decide)
    · have hmem := lookupCell_mem _ _ _ hl
      obtain ⟨r, c, hch, he⟩ := (fromLines_mem lines (pos, s)).mp hmem
      exact ⟨r, c, hch, congrArg Prod.fst he⟩
  · rintro ⟨r, c, hch, hpos⟩
    have hmem : (pos, CellState.Infected) ∈ (Grid.fromLines lines).cells :=
      (fromLines_mem lines (pos, CellState.Infected)).mpr
        ⟨r, c, hch, by rw [hpos]⟩
    obtain ⟨s, hs⟩ := lookupCell_isSome _ pos ⟨_, hmem⟩
    have hv := fromLines_value lines (pos, s) (lookupCell_mem _ _ _ hs)
    rw [Grid.state, hs]
    exact hv

theorem fromLines_state_index (lines : List (List Char))
    (h3 : lines.length = 3) (w3 : (lines.headD []).length = 3) (r c : Nat) :
    ((Grid.fromLines lines).state ((r : Int) - 1, (c : Int) - 1) =
        CellState.Infected ↔
      ∃ l, lines[r]? = some l ∧ l[c]? = some '#') := by
  rw [fromLines_state_infected_iff, h3, w3]
  constructor
  · rintro ⟨r', c', ⟨l, hl, hc⟩, hpos⟩
    rw [Prod.ext_iff] at hpos
    obtain ⟨h1, h2⟩ := hpos
    norm_num at h1 h2
    have hr : r' = r := by omega
    have hcc : c' = c := by omega
    rw [hr] at hl
    rw [hcc] at hc
    exact ⟨l, hl, hc⟩
  · rintro ⟨l, hl, hc⟩
    exact ⟨r, c, ⟨l, hl, hc⟩, by norm_num⟩

/-- Claim C6: grid construction marks exactly the positions of the `'#'`
characters as `Infected`, placing row `r`, column `c` at
`(r - h/2, c - w/2)` with truncating division, and leaves every other
coordinate `Clean`; for a 3x3 block the center character maps to `(0,0)` and
the corners to `(-1,-1)`, `(-1,1)`, `(1,-1)`, `(1,1)`. -/
theorem fromLines_spec (lines : List (List Char)) (h w : Nat)
    (hne : lines ≠ []) (hh : lines.length = h)
    (hw : (lines.headD []).length = w) (hrect : ∀ l ∈ lines, l.length = w) :
    (∀ pos : Position,
      ((Grid.fromLines lines).state pos = CellState.Infected ↔
        ∃ r c : Nat, (∃ l, lines[r]? = some l ∧ l[c]? = some '#') ∧
          pos = ((r : Int) - ((h / 2 : Nat) : Int),
                 (c : Int) - ((w / 2 : Nat) : Int))) ∧
      ((Grid.fromLines lines).state pos = CellState.Clean ∨
       (Grid.fromLines lines).state pos = CellState.Infected)) ∧
    (h = 3 → w = 3 →
      (((Grid.fromLines lines).state (0, 0) = CellState.Infected ↔
         ∃ l, lines[1]? = some l ∧ l[1]? = some '#') ∧
       ((Grid.fromLines lines).state (-1, -1) = CellState.Infected ↔
         ∃ l, lines[0]? = some l ∧ l[0]? = some '#') ∧
       ((Grid.fromLines lines).state (-1, 1) = CellState.Infected ↔
         ∃ l, lines[0]? = some l ∧ l[2]? = some '#') ∧
       ((Grid.fromLines lines).state (1, -1) = CellState.Infected ↔
         ∃ l, lines[2]? = some l ∧ l[0]? = some '#') ∧
       ((Grid.fromLines lines).state (1, 1) = CellState.Infected ↔
         ∃ l, lines[2]? = some l ∧ l[2]? = some '#'))) := by
  subst hh hw
  refine ⟨fun pos => ⟨fromLines_state_infected_iff lines pos,
    fromLines_state_cases lines pos⟩, fun h3 w3 => ?_⟩
  have k0 := fromLines_state_index lines h3 w3 0 0
  have k1 := fromLines_state_index lines h3 w3 0 2
  have k2 := fromLines_state_index lines h3 w3 1 1
  have k3 := fromLines_state_index lines h3 w3 2 0
  have k4 := fromLines_state_index lines h3 w3 2 2
  norm_num at k0 k1 k2 k3 k4
  exact ⟨k2, k0, k1, k3, k4⟩

/-- Witness for C6 on the example block: the `'#'` at row 1, column 0 sits
at coordinate `(0, -1)`. -/
theorem fromLines_spec_witness :
    (exampleLines ≠ [] ∧ exampleLines.length = 3 ∧
      (exampleLines.headD []).length = 3 ∧
      ∀ l ∈ exampleLines, l.length = 3) ∧
    (Grid.fromLines exampleLines).state (0, -1) = CellState.Infected := by
  refine ⟨⟨by decide, rfl, rfl, by decide⟩, ?_⟩
  exact ((fromLines_spec exampleLines 3 3 (by decide) rfl rfl
      (by decide)).1 (0, -1)).1.mpr
    ⟨1, 0, ⟨['#', '.', '.'], rfl, rfl⟩, by decide⟩

/-- The Basic-alphabet invariant: every cell reads `Clean` or `Infected`. -/
def Grid.basicOnly (g : Grid) : Prop :=
  ∀ q, g.state q = CellState.Clean ∨ g.state q = CellState.Infected

theorem fromLines_basicOnly (lines : List (List Char)) :
    (Grid.fromLines lines).basicOnly :=
  fun q => fromLines_state_cases lines q

theorem basic_apply_ok (g : Grid) (c : Currier) (hg : g.basicOnly) :
    ∃ g' c', CurrierRule.apply g c = Except.ok (g', c') ∧ g'.basicOnly := by
  rcases hg c.position with h | h
  · refine ⟨g.infect c.position, (c.left.step).2, ?_, fun q => ?_⟩
    · simp [CurrierRule.apply, Grid.reverse_of_clean g c.position h]
    · rw [Grid.state_infect]
      by_cases hq : q = c.position
      · simp [hq]
      · simp only [hq, if_false]
        exact hg q
  · refine ⟨g.clean c.position, (c.right.step).2, ?_, fun q => ?_⟩
    · simp [CurrierRule.apply, Grid.reverse_of_infected g c.position h]
    · rw [Grid.state_clean]
      by_cases hq : q = c.position
      · simp [hq]
      · simp only [hq, if_false]
        exact hg q

theorem basic_run_ok (n : Nat) : ∀ (g : Grid) (c : Currier), g.basicOnly →
    ∃ items g' c',
      ComputingCluster.run n (ComputingCluster.mk g c CurrierRule.apply) =
        Except.ok (items, ComputingCluster.mk g' c' CurrierRule.apply) ∧
      g'.basicOnly := by
  induction n with
  | zero => exact fun g c hg => ⟨[], g, c, rfl, hg⟩
  | succ n ih =>
    intro g c hg
    obtain ⟨g1, c1, happ, hg1⟩ := basic_apply_ok g c hg
    obtain ⟨items, g', c', hrun, hg'⟩ := ih g1 c1 hg1
    refine ⟨(c.position, g1.state c.position) :: items, g', c', ?_, hg'⟩
    have hnext : (ComputingCluster.mk g c CurrierRule.apply).next =
        Except.ok (some ((c.position, g1.state c.position),
          ComputingCluster.mk g1 c1 CurrierRule.apply)) := by
      simp [ComputingCluster.next, happ]
    simp only [ComputingCluster.run, hnext, hrun]

/-- Claim C10: every grid built from text is in the Basic alphabet
everywhere, the Basic policy preserves that invariant for any number of
steps, and therefore a Basic run on a text-constructed grid never aborts:
`run` and `infections` always succeed. -/
theorem basic_run_safe (lines : List (List Char)) (c : Currier) (n : Nat) :
    ∃ items cl',
      ComputingCluster.run n
          (ComputingCluster.mk (Grid.fromLines lines) c CurrierRule.apply) =
        Except.ok (items, cl') ∧
      cl'.grid.basicOnly ∧
      ∃ k, infections
          (ComputingCluster.mk (Grid.fromLines lines) c CurrierRule.apply) n =
        Except.ok k := by
  obtain ⟨items, g', c', hrun, hg'⟩ :=
    basic_run_ok n (Grid.fromLines lines) c (fromLines_basicOnly lines)
  refine ⟨items, ComputingCluster.mk g' c' CurrierRule.apply, hrun, hg', ?_⟩
  refine ⟨(items.filter (fun e => decide (e.2 = CellState.Infected))).length, ?_⟩
  simp only [infections]
  rw [hrun]
  rfl

/-- The first seven elements of the Basic run on the example block (the
repository's `policy_currier` test). -/
theorem basic_example_trace :
    (ComputingCluster.run 7 (ComputingCluster.mk (Grid.fromLines exampleLines)
        Currier.default CurrierRule.apply)).map Prod.fst =
      Except.ok [((0, 0), CellState.Infected), ((0, -1), CellState.Clean),
        ((-1, -1), CellState.Infected), ((-1, -2), CellState.Infected),
        ((0, -2), CellState.Infected), ((0, -1), CellState.Infected),
        ((-1, -1), CellState.Clean)] := by
  rfl

end Day22
